import Mathlib

/-!
Verification development for the ChatFlow real-time messaging backend.

The definitions below are a shallow embedding of the JavaScript source:
* `UserTracking` models `backend/services/userTrackingService.js`
  (two maps: `userSockets : Map<userId, Set<socketId>>` and
  `socketUsers : Map<socketId, userId>`).
* `RoomService` models `backend/services/roomService.js` (the Postgres
  tables `rooms`, `room_members`, `messages` become lists of rows, and each
  exported query becomes a pure function on a `Store`).
* `SocketServer` models the event handlers of
  `backend/socket/socketServer.js` as pure functions returning the
  acknowledgment payload, the updated state, and the emitted events.

JavaScript `Map` objects are modelled as association lists with the exact
`get` / `set` / `delete` semantics; `Set` objects as duplicate-free lists in
insertion order. The database clock `created_at DEFAULT CURRENT_TIMESTAMP`
is modelled by the `now` field of the store, advanced at each insert.
-/

namespace KV

variable {κ : Type} {α : Type} [DecidableEq κ]

/-- `Map.get`: the value stored under the first (only) entry for key `k`. -/
def lookup (m : List (κ × α)) (k : κ) : Option α :=
  (m.find? (fun p => decide (p.1 = k))).map (fun p => p.2)

/-- `Map.set`: replace the entry for `k` when present, else append it. -/
def setKey (m : List (κ × α)) (k : κ) (v : α) : List (κ × α) :=
  match m with
  | [] => [(k, v)]
  | p :: rest => if p.1 = k then (k, v) :: rest else p :: setKey rest k v

/-- `Map.delete`: remove the entry for `k` when present. -/
def deleteKey (m : List (κ × α)) (k : κ) : List (κ × α) :=
  match m with
  | [] => []
  | p :: rest => if p.1 = k then rest else p :: deleteKey rest k

/-- `Map.keys` in insertion order. -/
def keys (m : List (κ × α)) : List κ :=
  m.map Prod.fst

end KV

namespace UserTracking

open KV

/-- State of `userTrackingService.js`: the module-level maps `userSockets`
(userId to Set of socketIds) and `socketUsers` (socketId to userId). User
ids are the integer database ids; socket ids are opaque strings. -/
structure Registry where
  userSockets : List (Nat × List String)
  socketUsers : List (String × Nat)
  deriving DecidableEq

/-- Both maps start empty when the module loads. -/
def emptyRegistry : Registry := ⟨[], []⟩

/-- `addUser(userId, socketId)`: initialize the Set for a new user, add the
socket to the Set of the user (a JS Set ignores a duplicate add), and record
the reverse mapping. -/
def addUser (st : Registry) (userId : Nat) (socketId : String) : Registry :=
  let set0 := (lookup st.userSockets userId).getD []
  let set1 := if socketId ∈ set0 then set0 else set0 ++ [socketId]
  { userSockets := setKey st.userSockets userId set1
    socketUsers := setKey st.socketUsers socketId userId }

/-- `removeUser(socketId)`: look the owning user up in the reverse map,
remove the socket from the Set of that user, drop the whole user entry when
the Set became empty, clean the reverse mapping, and return the userId
(`null` when the socket was not tracked). -/
def removeUser (st : Registry) (socketId : String) : Registry × Option Nat :=
  match lookup st.socketUsers socketId with
  | none => (st, none)
  | some userId =>
    let forward :=
      match lookup st.userSockets userId with
      | none => st.userSockets
      | some set0 =>
        let set1 := set0.filter (fun x => decide (x ≠ socketId))
        if set1 = [] then deleteKey st.userSockets userId
        else setKey st.userSockets userId set1
    ({ userSockets := forward
       socketUsers := deleteKey st.socketUsers socketId }, some userId)

/-- `getUserSockets(userId)`: `Array.from` of the Set of the user, or `[]`. -/
def getUserSockets (st : Registry) (userId : Nat) : List String :=
  (lookup st.userSockets userId).getD []

/-- `getUserBySocket(socketId)`: reverse lookup, `null` when absent. -/
def getUserBySocket (st : Registry) (socketId : String) : Option Nat :=
  lookup st.socketUsers socketId

/-- `isUserOnline(userId)`: `socketSet && socketSet.size > 0` (the absent
case yields `undefined`, which is falsy, modelled as `false`). -/
def isUserOnline (st : Registry) (userId : Nat) : Bool :=
  match lookup st.userSockets userId with
  | some l => decide (0 < l.length)
  | none => false

/-- `getOnlineUsers()`: `Array.from(userSockets.keys())`. -/
def getOnlineUsers (st : Registry) : List Nat :=
  keys st.userSockets

/-- `getOnlineUserCount()`: `userSockets.size`. -/
def getOnlineUserCount (st : Registry) : Nat :=
  st.userSockets.length

/-- One call to the tracking service mutators. -/
inductive RegistryOp where
  | add (userId : Nat) (socketId : String)
  | remove (socketId : String)
  deriving DecidableEq

/-- Apply one mutator call (the return value of `removeUser` is dropped). -/
def applyOp (st : Registry) : RegistryOp → Registry
  | .add u s => addUser st u s
  | .remove s => (removeUser st s).1

/-- Run a sequence of mutator calls from an arbitrary start state. -/
def runFrom (st : Registry) (ops : List RegistryOp) : Registry :=
  ops.foldl applyOp st

/-- Run a sequence of mutator calls from the empty registry. -/
def runOps (ops : List RegistryOp) : Registry :=
  runFrom emptyRegistry ops

/-- Structural well-formedness of the two JS Maps: keys are unique (true of
any `Map`) and every stored Set is non-empty and duplicate-free. -/
structure WFReg (st : Registry) : Prop where
  fwdKeys : (keys st.userSockets).Nodup
  revKeys : (keys st.socketUsers).Nodup
  vals : ∀ p ∈ st.userSockets, p.2 ≠ [] ∧ p.2.Nodup

/-- The forward and the reverse map agree: the reverse map sends a socket to
`u` exactly when the socket sits in the Set of `u`. -/
def Consistent (st : Registry) : Prop :=
  ∀ (s : String) (u : Nat),
    lookup st.socketUsers s = some u ↔ s ∈ getUserSockets st u

/-- Traces of mutator calls in which a socket id that is currently
registered to one user is never re-added under a different user (socket.io
ids are unique per connection, so live traces satisfy this). -/
inductive ValidFrom : Registry → List RegistryOp → Prop where
  | nil {st : Registry} : ValidFrom st []
  | add {st : Registry} {u : Nat} {s : String} {ops : List RegistryOp} :
      (getUserBySocket st s = none ∨ getUserBySocket st s = some u) →
      ValidFrom (addUser st u s) ops →
      ValidFrom st (RegistryOp.add u s :: ops)
  | remove {st : Registry} {s : String} {ops : List RegistryOp} :
      ValidFrom ((removeUser st s).1) ops →
      ValidFrom st (RegistryOp.remove s :: ops)

end UserTracking

namespace RoomService

/-- A row of the `rooms` table (the columns the handlers read). -/
structure Room where
  id : Nat
  name : String
  display_name : String
  is_public : Bool
  deriving DecidableEq

/-- A row of the `room_members` table; `UNIQUE(room_id, user_id)` holds in
the schema and is maintained by the insert-if-absent below. -/
structure MemberRow where
  room_id : Nat
  user_id : Nat
  role : String
  deriving DecidableEq

/-- A row of the `messages` table. -/
structure MessageRow where
  id : Nat
  room_id : Option Nat
  sender_id : Nat
  recipient_id : Option Nat
  content : String
  message_type : String
  created_at : Nat
  deleted_at : Option Nat
  deriving DecidableEq

/-- The persistent state behind `roomService.js`: the three tables, the
serial counter for message ids, and the database clock. -/
structure Store where
  rooms : List Room
  room_members : List MemberRow
  messages : List MessageRow
  nextMessageId : Nat
  now : Nat
  deriving DecidableEq

/-- `getRoomById`: `SELECT * FROM rooms WHERE id = $1`, first row or null. -/
def getRoomById (st : Store) (roomId : Nat) : Option Room :=
  st.rooms.find? (fun r => decide (r.id = roomId))

/-- The row predicate `room_id = $1 AND user_id = $2` on `room_members`. -/
def memberPred (roomId userId : Nat) (r : MemberRow) : Bool :=
  decide (r.room_id = roomId ∧ r.user_id = userId)

/-- `SELECT ... FROM room_members WHERE room_id = $1 AND user_id = $2`,
first row or null. -/
def findMember (st : Store) (roomId userId : Nat) : Option MemberRow :=
  st.room_members.find? (memberPred roomId userId)

/-- Number of persisted membership rows for the pair (used to state the
no-duplicate-row property). -/
def memberRowCount (st : Store) (roomId userId : Nat) : Nat :=
  (st.room_members.filter (memberPred roomId userId)).length

/-- `isRoomMember(roomId, userId)`: `result.rows.length > 0`. -/
def isRoomMember (st : Store) (roomId userId : Nat) : Bool :=
  decide (0 < (st.room_members.filter (memberPred roomId userId)).length)

/-- `joinRoom(roomId, userId)`: reject a missing or private room, then
`INSERT ... ON CONFLICT (room_id, user_id) DO NOTHING RETURNING *`; when the
insert returned no row the user already was a member and the existing row is
selected and returned. -/
def joinRoom (st : Store) (roomId userId : Nat) :
    Except String (Store × MemberRow) :=
  match getRoomById st roomId with
  | none => .error "Room not found"
  | some room =>
    if room.is_public = false then .error "Room is private"
    else
      match findMember st roomId userId with
      | some existing => .ok (st, existing)
      | none =>
        let row : MemberRow := ⟨roomId, userId, "member"⟩
        .ok ({ st with room_members := st.room_members ++ [row] }, row)

/-- `leaveRoom(roomId, userId)`: reject a non-member; reject the owner; else
`DELETE FROM room_members WHERE room_id = $1 AND user_id = $2` (the source
re-checks that the delete returned a row and raises the non-member error
otherwise). -/
def leaveRoom (st : Store) (roomId userId : Nat) : Except String Store :=
  match findMember st roomId userId with
  | none => .error "Not a member of this room"
  | some row =>
    if row.role = "owner" then
      .error "Room owner cannot leave. Delete the room instead"
    else
      let rest := st.room_members.filter (fun r => !(memberPred roomId userId r))
      if rest.length = st.room_members.length then
        .error "Not a member of this room"
      else
        .ok { st with room_members := rest }

/-- Sort key of `ORDER BY CASE role WHEN owner THEN 1 WHEN admin THEN 2
ELSE 3 END`. -/
def roleOrder (role : String) : Nat :=
  if role = "owner" then 1 else if role = "admin" then 2 else 3

/-- The `ORDER BY` relation of `getRoomMembers` (the `joined_at` tiebreak is
realized by the stability of the sort, since rows are stored in join
order). -/
def byRole (a b : MemberRow) : Prop :=
  roleOrder a.role ≤ roleOrder b.role

instance : DecidableRel byRole := fun a b => Nat.decLe _ _

/-- `getRoomMembers(roomId)`: membership rows of the room ordered by role
rank (the user-profile columns of the SQL join are not modelled). -/
def getRoomMembers (st : Store) (roomId : Nat) : List MemberRow :=
  List.insertionSort byRole
    (st.room_members.filter (fun r => decide (r.room_id = roomId)))

/-- Argument record of `saveMessage` (the `messageType` argument always
receives "text" from the handlers and is defaulted here). -/
structure MessageInput where
  roomId : Option Nat
  senderId : Nat
  recipientId : Option Nat
  content : String

/-- `saveMessage(messageData)`: require a destination, require content, for
a room message require membership of the sender, then `INSERT INTO messages
... RETURNING *` stamping `created_at` with the database clock. -/
def saveMessage (st : Store) (m : MessageInput) :
    Except String (Store × MessageRow) :=
  if m.roomId = none ∧ m.recipientId = none then
    .error "Message must have either roomId or recipientId"
  else if m.content = "" then
    .error "Message content is required"
  else
    match m.roomId with
    | some rid =>
      if isRoomMember st rid m.senderId then
        let row : MessageRow :=
          ⟨st.nextMessageId, m.roomId, m.senderId, m.recipientId,
            m.content, "text", st.now, none⟩
        .ok ({ st with
                messages := st.messages ++ [row]
                nextMessageId := st.nextMessageId + 1
                now := st.now + 1 }, row)
      else .error "User is not a member of this room"
    | none =>
      let row : MessageRow :=
        ⟨st.nextMessageId, m.roomId, m.senderId, m.recipientId,
          m.content, "text", st.now, none⟩
      .ok ({ st with
              messages := st.messages ++ [row]
              nextMessageId := st.nextMessageId + 1
              now := st.now + 1 }, row)

/-- The `ORDER BY created_at DESC` relation of the history queries. -/
def createdDesc (a b : MessageRow) : Prop :=
  b.created_at ≤ a.created_at

instance : DecidableRel createdDesc := fun a b => Nat.decLe _ _

instance : IsTotal MessageRow createdDesc :=
  ⟨fun a b => (Nat.le_total b.created_at a.created_at)⟩

instance : IsTrans MessageRow createdDesc :=
  ⟨fun _ _ _ hab hbc => Nat.le_trans hbc hab⟩

/-- `getRoomMessages(roomId, limit)`: select the non-deleted messages of the
room, newest first, keep `limit` rows, then `rows.reverse()` to hand back
chronological order (oldest first). -/
def getRoomMessages (st : Store) (roomId : Nat) (limit : Nat) :
    List MessageRow :=
  ((List.insertionSort createdDesc
      (st.messages.filter
        (fun m => decide (m.room_id = some roomId ∧ m.deleted_at = none)))).take
    limit).reverse

end RoomService

namespace SocketServer

open UserTracking RoomService

/-- The socket.io room subscription state: the set of (socketId, roomId)
pairs such that the socket has joined the channel `room:roomId`. -/
abbrev Subs := List (String × Nat)

/-- The characters `String.prototype.trim` strips (the common ASCII part of
the JS WhiteSpace/LineTerminator sets; the handlers only compare the
trimmed text against the empty string). -/
def jsWhitespace (c : Char) : Bool :=
  c = ' ' || c = '\t' || c = '\n' || c = '\r' || c = '\x0b' || c = '\x0c'

/-- The guard `!text || !text.trim()`: true exactly when the text is empty
or consists of whitespace only, i.e. when `text.trim()` is falsy. -/
def isBlank (text : String) : Bool :=
  text.data.all jsWhitespace

/-- `socket.join("room:" + roomId)`: idempotent insertion. -/
def joinSub (subs : Subs) (socketId : String) (roomId : Nat) : Subs :=
  if (socketId, roomId) ∈ subs then subs else subs ++ [(socketId, roomId)]

/-- The sockets currently subscribed to the channel of a room; this is the
target set of `io.to("room:" + roomId).emit(...)`. -/
def subscribersOf (subs : Subs) (roomId : Nat) : List String :=
  (subs.filter (fun p => decide (p.2 = roomId))).map Prod.fst

/-- A JavaScript value as tested by `if (...)`: the un-awaited result of an
async function is a Promise object, and an object is always truthy no matter
which boolean it will resolve to. -/
inductive JsValue where
  | promiseOfBool (resolvesTo : Bool)
  | jsBool (b : Bool)
  deriving DecidableEq

/-- JS truthiness. -/
def truthy : JsValue → Bool
  | .promiseOfBool _ => true
  | .jsBool b => b

/-- Acknowledgment of `get-room-members`. -/
structure MembersAck where
  success : Bool
  data : Option (List MemberRow)
  error : Option String
  deriving DecidableEq

/-- The `get-room-members` handler. The source reads
`const isMember = roomService.isRoomMember(roomId, userId);` without
`await`, so `isMember` is a Promise object and the `if (!isMember)` guard
tests the truthiness of that object, not the membership boolean. -/
def getRoomMembersHandler (st : Store) (userId roomId : Nat) : MembersAck :=
  let isMember : JsValue := .promiseOfBool (isRoomMember st roomId userId)
  if truthy isMember = false then
    { success := false, data := none,
      error := some "Not authorized to view room members" }
  else
    { success := true, data := some (getRoomMembers st roomId), error := none }

/-- What awaiting the membership check would have given: the handler the
spec describes, used to state how far the code diverges from it. -/
def getRoomMembersHandlerAwaited (st : Store) (userId roomId : Nat) :
    MembersAck :=
  if isRoomMember st roomId userId = false then
    { success := false, data := none,
      error := some "Not authorized to view room members" }
  else
    { success := true, data := some (getRoomMembers st roomId), error := none }

/-- Outcome of the `join-room` handler: the callback payload, the updated
store, the updated subscriptions, and how many `user-joined-room` broadcasts
the call emitted. -/
structure JoinOutcome where
  success : Bool
  error : Option String
  store : Store
  subs : Subs
  userJoinedRoomBroadcasts : Nat
  deriving DecidableEq

/-- The `join-room` handler: `roomService.joinRoom`, then `socket.join`,
then the room and the last 50 messages are read for the ack payload, then
one `user-joined-room` broadcast to the other subscribers of the channel.
Any thrown error becomes `success:false` and skips the join and the
broadcast. -/
def joinRoomHandler (st : Store) (subs : Subs) (userId : Nat)
    (socketId : String) (roomId : Nat) : JoinOutcome :=
  match joinRoom st roomId userId with
  | .error e => ⟨false, some e, st, subs, 0⟩
  | .ok (st1, _row) =>
    let subs1 := joinSub subs socketId roomId
    match getRoomById st1 roomId with
    | none =>
      -- `room.name` on a null room would throw inside the try block
      ⟨false, some "Cannot read properties of null", st1, subs1, 0⟩
    | some _room => ⟨true, none, st1, subs1, 1⟩

/-- Outcome of the `leave-room` handler. -/
structure LeaveOutcome where
  success : Bool
  error : Option String
  store : Store
  userLeftRoomBroadcasts : Nat
  deriving DecidableEq

/-- The `leave-room` handler: read the room for the broadcast payload, call
`roomService.leaveRoom`, and on success `socket.leave` plus one
`user-left-room` broadcast; a thrown error becomes `success:false` with the
store untouched. -/
def leaveRoomHandler (st : Store) (userId roomId : Nat) : LeaveOutcome :=
  match leaveRoom st roomId userId with
  | .error e => ⟨false, some e, st, 0⟩
  | .ok st1 => ⟨true, none, st1, 1⟩

/-- Outcome of the `room-message` handler: ack payload, updated store, and
the sockets to which the `room-message` event is emitted. -/
structure RoomMessageOutcome where
  success : Bool
  error : Option String
  store : Store
  delivered : List String
  deriving DecidableEq

/-- The `room-message` handler: reject empty (or whitespace-only, via
`!text.trim()`) text and text longer than 5000, persist through
`roomService.saveMessage` (which re-checks membership), then emit the
message to every socket in the channel `room:roomId` via `io.to`. -/
def roomMessageHandler (st : Store) (subs : Subs) (userId roomId : Nat)
    (text : String) : RoomMessageOutcome :=
  if isBlank text then
    ⟨false, some "Message cannot be empty", st, []⟩
  else if 5000 < text.length then
    ⟨false, some "Message too long (max 5000 characters)", st, []⟩
  else
    match saveMessage st ⟨some roomId, userId, none, text⟩ with
    | .error e => ⟨false, some e, st, []⟩
    | .ok (st1, _row) => ⟨true, none, st1, subscribersOf subs roomId⟩

/-- Outcome of the `direct-message` handler: ack payload, updated store, and
the sockets to which the `direct-message` event is emitted, in emission
order. -/
structure DirectMessageOutcome where
  success : Bool
  error : Option String
  store : Store
  delivered : List String
  deriving DecidableEq

/-- The `direct-message` handler: require a recipient id, reject empty or
oversized text, persist through `roomService.saveMessage`, emit the message
to every socket of the recipient (`userTracking.getUserSockets`), and echo
it to the initiating socket only (`socket.emit`). -/
def directMessageHandler (reg : Registry) (st : Store) (userId : Nat)
    (socketId : String) (recipientId : Option Nat) (text : String) :
    DirectMessageOutcome :=
  match recipientId with
  | none => ⟨false, some "Recipient ID is required", st, []⟩
  | some rid =>
    if isBlank text then
      ⟨false, some "Message cannot be empty", st, []⟩
    else if 5000 < text.length then
      ⟨false, some "Message too long (max 5000 characters)", st, []⟩
    else
      match saveMessage st ⟨none, userId, some rid, text⟩ with
      | .error e => ⟨false, some e, st, []⟩
      | .ok (st1, _row) =>
        ⟨true, none, st1, getUserSockets reg rid ++ [socketId]⟩

/-- Outcome of the `disconnect` handler. -/
structure DisconnectOutcome where
  registry : Registry
  userLeftBroadcasts : Nat
  onlineUsersBroadcasts : Nat
  deriving DecidableEq

/-- The `disconnect` handler: `userTracking.removeUser(socket.id)`; when a
user was found and `isUserOnline` now reports false, emit one `user-left`
broadcast to the remaining sessions and one refreshed `online-users`
snapshot to everyone. -/
def disconnectHandler (reg : Registry) (socketId : String) :
    DisconnectOutcome :=
  let res := removeUser reg socketId
  match res.2 with
  | none => ⟨res.1, 0, 0⟩
  | some uid =>
    if isUserOnline res.1 uid then ⟨res.1, 0, 0⟩
    else ⟨res.1, 1, 1⟩

end SocketServer

namespace Fixtures

open UserTracking RoomService

/-- A public room with id 1, owned by user 1. -/
def room1 : Room := ⟨1, "general", "General", true⟩

/-- A store with the public room 1 whose only member is its owner, user 1. -/
def storeA : Store := ⟨[room1], [⟨1, 1, "owner"⟩], [], 1, 10⟩

/-- A store where room 1 has the owner 1 and the plain member 2. -/
def storeB : Store := ⟨[room1], [⟨1, 1, "owner"⟩, ⟨1, 2, "member"⟩], [], 1, 10⟩

/-- A registry where user 1 has the two live sessions "a" and "b". -/
def regTwoTabs : Registry := runOps [RegistryOp.add 1 "a", RegistryOp.add 1 "b"]

end Fixtures

namespace KV

variable {κ : Type} {α : Type} [DecidableEq κ]

theorem lookup_nil (k : κ) : lookup ([] : List (κ × α)) k = none := rfl

theorem lookup_cons (p : κ × α) (m : List (κ × α)) (k : κ) :
    lookup (p :: m) k = if p.1 = k then some p.2 else lookup m k := by
  by_cases h : p.1 = k <;> simp [lookup, List.find?, h]

theorem lookup_setKey_self (m : List (κ × α)) (k : κ) (v : α) :
    lookup (setKey m k v) k = some v := by
  induction m with
  | nil => simp [setKey, lookup_cons]
  | cons p rest ih =>
    by_cases h : p.1 = k
    · simp [setKey, h, lookup_cons]
    · simp [setKey, h, lookup_cons, ih]

theorem lookup_setKey_ne (m : List (κ × α)) (k k' : κ) (v : α) (h : k' ≠ k) :
    lookup (setKey m k v) k' = lookup m k' := by
  have hkk : ¬ (k = k') := fun hh => h hh.symm
  induction m with
  | nil =>
    rw [setKey, lookup_cons, lookup_nil]
    exact if_neg hkk
  | cons p rest ih =>
    by_cases hp : p.1 = k
    · have hpk : ¬ (p.1 = k') := by rw [hp]; exact hkk
      rw [setKey, if_pos hp, lookup_cons, lookup_cons, if_neg hpk]
      exact if_neg hkk
    · rw [setKey, if_neg hp, lookup_cons, lookup_cons, ih]

theorem lookup_deleteKey_ne (m : List (κ × α)) (k k' : κ) (h : k' ≠ k) :
    lookup (deleteKey m k) k' = lookup m k' := by
  induction m with
  | nil => rw [deleteKey]
  | cons p rest ih =>
    by_cases hp : p.1 = k
    · have hpk : ¬ (p.1 = k') := by rw [hp]; exact fun hh => h hh.symm
      rw [deleteKey, if_pos hp, lookup_cons, if_neg hpk]
    · rw [deleteKey, if_neg hp, lookup_cons, lookup_cons, ih]

theorem mem_keys_of_lookup {m : List (κ × α)} {k : κ} {v : α}
    (h : lookup m k = some v) : k ∈ keys m := by
  induction m with
  | nil => simp [lookup] at h
  | cons p rest ih =>
    rw [lookup_cons] at h
    by_cases hp : p.1 = k
    · simp [keys, hp.symm]
    · rw [if_neg hp] at h
      simp [keys] at ih ⊢
      right
      exact ih h

theorem lookup_isSome_of_mem_keys {m : List (κ × α)} {k : κ}
    (h : k ∈ keys m) : (lookup m k).isSome := by
  induction m with
  | nil => simp [keys] at h
  | cons p rest ih =>
    rw [lookup_cons]
    by_cases hp : p.1 = k
    · simp [hp]
    · rw [if_neg hp]
      simp [keys] at h
      rcases h with h | h
      · exact absurd h.symm hp
      · exact ih (by simp [keys, h])

theorem lookup_eq_none_iff (m : List (κ × α)) (k : κ) :
    lookup m k = none ↔ k ∉ keys m := by
  constructor
  · intro h hk
    have := lookup_isSome_of_mem_keys hk
    rw [h] at this
    simp at this
  · intro h
    cases hl : lookup m k with
    | none => rfl
    | some v => exact absurd (mem_keys_of_lookup hl) h

theorem lookup_mem {m : List (κ × α)} {k : κ} {v : α}
    (h : lookup m k = some v) : (k, v) ∈ m := by
  induction m with
  | nil => simp [lookup] at h
  | cons p rest ih =>
    rw [lookup_cons] at h
    by_cases hp : p.1 = k
    · rw [if_pos hp] at h
      have hv : p.2 = v := Option.some.inj h
      have : p = (k, v) := by
        cases p
        simp only [Prod.mk.injEq]
        exact ⟨hp, hv⟩
      rw [← this]
      exact List.mem_cons_self _ _
    · rw [if_neg hp] at h
      exact List.mem_cons_of_mem _ (ih h)

theorem mem_setKey {m : List (κ × α)} {k : κ} {v : α} {p : κ × α}
    (h : p ∈ setKey m k v) : p ∈ m ∨ p = (k, v) := by
  induction m with
  | nil =>
    rw [setKey] at h
    right
    simpa using h
  | cons q rest ih =>
    by_cases hq : q.1 = k
    · rw [setKey, if_pos hq] at h
      rcases List.mem_cons.mp h with h | h
      · right; exact h
      · left; exact List.mem_cons_of_mem _ h
    · rw [setKey, if_neg hq] at h
      rcases List.mem_cons.mp h with h | h
      · left; rw [h]; exact List.mem_cons_self _ _
      · rcases ih h with h' | h'
        · left; exact List.mem_cons_of_mem _ h'
        · right; exact h'

theorem mem_deleteKey {m : List (κ × α)} {k : κ} {p : κ × α}
    (h : p ∈ deleteKey m k) : p ∈ m := by
  induction m with
  | nil => simp [deleteKey] at h
  | cons q rest ih =>
    by_cases hq : q.1 = k
    · rw [deleteKey, if_pos hq] at h
      exact List.mem_cons_of_mem _ h
    · rw [deleteKey, if_neg hq] at h
      rcases List.mem_cons.mp h with h | h
      · rw [h]; exact List.mem_cons_self _ _
      · exact List.mem_cons_of_mem _ (ih h)

theorem mem_keys_iff (m : List (κ × α)) (k : κ) :
    k ∈ keys m ↔ ∃ p ∈ m, p.1 = k := by
  simp [keys]

theorem keys_setKey_nodup {m : List (κ × α)} (k : κ) (v : α)
    (h : (keys m).Nodup) : (keys (setKey m k v)).Nodup := by
  induction m with
  | nil => simp [setKey, keys]
  | cons p rest ih =>
    simp only [keys, List.map_cons, List.nodup_cons] at h
    by_cases hp : p.1 = k
    · rw [setKey, if_pos hp]
      simp only [keys, List.map_cons, List.nodup_cons]
      constructor
      · intro hmem
        apply h.1
        rw [hp]
        exact hmem
      · exact h.2
    · rw [setKey, if_neg hp]
      simp only [keys, List.map_cons, List.nodup_cons]
      refine ⟨fun hmem => ?_, ih h.2⟩
      rcases (mem_keys_iff _ _).mp hmem with ⟨q, hq, hq1⟩
      rcases mem_setKey hq with h' | h'
      · exact h.1 ((mem_keys_iff _ _).mpr ⟨q, h', hq1⟩)
      · rw [h'] at hq1
        exact hp hq1.symm

theorem keys_deleteKey_nodup {m : List (κ × α)} (k : κ)
    (h : (keys m).Nodup) : (keys (deleteKey m k)).Nodup := by
  induction m with
  | nil => simp [deleteKey, keys]
  | cons p rest ih =>
    simp only [keys, List.map_cons, List.nodup_cons] at h
    by_cases hp : p.1 = k
    · rw [deleteKey, if_pos hp]
      exact h.2
    · rw [deleteKey, if_neg hp]
      simp only [keys, List.map_cons, List.nodup_cons]
      refine ⟨fun hmem => ?_, ih h.2⟩
      rcases (mem_keys_iff _ _).mp hmem with ⟨q, hq, hq1⟩
      exact h.1 ((mem_keys_iff _ _).mpr ⟨q, mem_deleteKey hq, hq1⟩)

theorem lookup_deleteKey_self {m : List (κ × α)} (k : κ)
    (h : (keys m).Nodup) : lookup (deleteKey m k) k = none := by
  induction m with
  | nil => simp [deleteKey, lookup]
  | cons p rest ih =>
    simp only [keys, List.map_cons, List.nodup_cons] at h
    by_cases hp : p.1 = k
    · rw [deleteKey, if_pos hp]
      rw [lookup_eq_none_iff]
      intro hk
      subst hp
      exact h.1 hk
    · rw [deleteKey, if_neg hp, lookup_cons, if_neg hp]
      exact ih h.2

end KV

namespace UserTracking

open KV

theorem wf_empty : WFReg emptyRegistry :=
  ⟨List.nodup_nil, List.nodup_nil, fun p hp => absurd hp (List.not_mem_nil p)⟩

theorem wf_addUser {st : Registry} (h : WFReg st) (u : Nat) (s : String) :
    WFReg (addUser st u s) := by
  refine ⟨keys_setKey_nodup _ _ h.fwdKeys, keys_setKey_nodup _ _ h.revKeys, ?_⟩
  intro p hp
  rcases mem_setKey hp with hmem | heq
  · exact h.vals p hmem
  · subst heq
    have hnd : ((lookup st.userSockets u).getD []).Nodup := by
      cases hl : lookup st.userSockets u with
      | none => simp
      | some l => simpa using (h.vals (u, l) (lookup_mem hl)).2
    by_cases hs : s ∈ (lookup st.userSockets u).getD []
    · refine ⟨?_, ?_⟩
      · rw [if_pos hs]
        intro hnil
        have hnil2 : (lookup st.userSockets u).getD [] = [] := hnil
        rw [hnil2] at hs
        exact (List.not_mem_nil s) hs
      · rw [if_pos hs]
        exact hnd
    · refine ⟨?_, ?_⟩
      · rw [if_neg hs]
        simp
      · rw [if_neg hs]
        have hdisj : ((lookup st.userSockets u).getD []).Disjoint [s] := by
          intro x hx hxs
          rw [List.mem_singleton] at hxs
          subst hxs
          exact hs hx
        exact List.Nodup.append hnd (List.nodup_singleton s) hdisj

theorem wf_removeUser {st : Registry} (h : WFReg st) (s : String) :
    WFReg ((removeUser st s).1) := by
  rw [removeUser]
  cases hrev : lookup st.socketUsers s with
  | none => exact h
  | some u =>
    simp only []
    cases hfwd : lookup st.userSockets u with
    | none =>
      exact ⟨h.fwdKeys, keys_deleteKey_nodup _ h.revKeys, h.vals⟩
    | some set0 =>
      simp only []
      by_cases hempty : set0.filter (fun x => decide (x ≠ s)) = []
      · rw [if_pos hempty]
        exact ⟨keys_deleteKey_nodup _ h.fwdKeys,
          keys_deleteKey_nodup _ h.revKeys,
          fun p hp => h.vals p (mem_deleteKey hp)⟩
      · rw [if_neg hempty]
        refine ⟨keys_setKey_nodup _ _ h.fwdKeys,
          keys_deleteKey_nodup _ h.revKeys, ?_⟩
        intro p hp
        rcases mem_setKey hp with hmem | heq
        · exact h.vals p hmem
        · subst heq
          have := h.vals (u, set0) (lookup_mem hfwd)
          exact ⟨hempty, this.2.filter _⟩

theorem wf_applyOp {st : Registry} (h : WFReg st) (op : RegistryOp) :
    WFReg (applyOp st op) := by
  cases op with
  | add u s => exact wf_addUser h u s
  | remove s => exact wf_removeUser h s

theorem wf_runFrom {st : Registry} (h : WFReg st) (ops : List RegistryOp) :
    WFReg (runFrom st ops) := by
  induction ops generalizing st with
  | nil => exact h
  | cons op rest ih => exact ih (wf_applyOp h op)

theorem wf_runOps (ops : List RegistryOp) : WFReg (runOps ops) :=
  wf_runFrom wf_empty ops

theorem isOnline_iff_sockets_ne_nil (st : Registry) (u : Nat) :
    isUserOnline st u = true ↔ getUserSockets st u ≠ [] := by
  rw [isUserOnline, getUserSockets]
  cases hl : lookup st.userSockets u with
  | none => simp
  | some l => simp [List.length_pos]

theorem mem_online_iff_sockets_ne_nil {st : Registry} (h : WFReg st) (u : Nat) :
    u ∈ getOnlineUsers st ↔ getUserSockets st u ≠ [] := by
  rw [getOnlineUsers, getUserSockets]
  constructor
  · intro hu
    have hsome := lookup_isSome_of_mem_keys hu
    cases hl : lookup st.userSockets u with
    | none => rw [hl] at hsome; simp at hsome
    | some l =>
      have hv := h.vals (u, l) (lookup_mem hl)
      simpa using hv.1
  · intro hne
    cases hl : lookup st.userSockets u with
    | none => rw [hl] at hne; simp at hne
    | some l => exact mem_keys_of_lookup hl

theorem remove_last_session_offline {st : Registry} (h : WFReg st) {u : Nat}
    {s : String} (hrev : getUserBySocket st s = some u)
    (hlast : getUserSockets st u = [s]) :
    u ∉ getOnlineUsers ((removeUser st s).1) := by
  have hfwd : lookup st.userSockets u = some [s] := by
    rw [getUserSockets] at hlast
    cases hl : lookup st.userSockets u with
    | none => rw [hl] at hlast; simp at hlast
    | some l =>
      rw [hl] at hlast
      simp only [Option.getD_some] at hlast
      rw [hlast]
  rw [getUserBySocket] at hrev
  have hfilter : ([s].filter (fun x => decide (x ≠ s))) = [] := by simp
  simp only [removeUser, hrev, hfwd, hfilter, if_true]
  intro hu
  have hsome := lookup_isSome_of_mem_keys hu
  rw [lookup_deleteKey_self u h.fwdKeys] at hsome
  simp at hsome
end UserTracking

open UserTracking in
/-- C1: for every sequence of `addUser`/`removeUser` calls starting from the
empty registry and every user `u`, `isUserOnline u` returns true iff
`getUserSockets u` is non-empty; `u` appears in `getOnlineUsers` iff `u` has
at least one live session; and removing the last session of `u` removes the
userId entry from the registry. -/
theorem C1_presence_registry_invariant (ops : List RegistryOp) (u : Nat) :
    (isUserOnline (runOps ops) u = true ↔ getUserSockets (runOps ops) u ≠ []) ∧
    (u ∈ getOnlineUsers (runOps ops) ↔ getUserSockets (runOps ops) u ≠ []) ∧
    (∀ s : String, getUserBySocket (runOps ops) s = some u →
      getUserSockets (runOps ops) u = [s] →
      u ∉ getOnlineUsers ((removeUser (runOps ops) s).1)) := by
  have hwf := wf_runOps ops
  exact ⟨isOnline_iff_sockets_ne_nil _ u,
    mem_online_iff_sockets_ne_nil hwf u,
    fun s hrev hlast => remove_last_session_offline hwf hrev hlast⟩

open UserTracking in
/-- Witness for C1 at the concrete trace `[addUser 1 "a"]`: the lone session
"a" is the last one, so removing it takes user 1 out of the registry, and
the online test agrees with the session list. -/
theorem C1_presence_registry_invariant_witness :
    (1 ∉ getOnlineUsers ((removeUser (runOps [RegistryOp.add 1 "a"]) "a").1)) ∧
    (isUserOnline (runOps [RegistryOp.add 1 "a"]) 1 = true ↔
      getUserSockets (runOps [RegistryOp.add 1 "a"]) 1 ≠ []) :=
  ⟨(C1_presence_registry_invariant [RegistryOp.add 1 "a"] 1).2.2 "a" rfl rfl,
    (C1_presence_registry_invariant [RegistryOp.add 1 "a"] 1).1⟩

namespace SocketServer

open KV UserTracking RoomService

theorem findMember_isSome_of_count_pos {st : Store} {roomId userId : Nat}
    (h : 0 < memberRowCount st roomId userId) :
    (findMember st roomId userId).isSome := by
  rw [memberRowCount] at h
  rw [findMember, List.find?_isSome]
  rcases List.exists_mem_of_length_pos h with ⟨row, hrow⟩
  rcases List.mem_filter.mp hrow with ⟨hmem, hpred⟩
  exact ⟨row, hmem, hpred⟩

theorem text_ne_empty_of_not_blank {text : String} (h : isBlank text = false) :
    ¬ (text = "") := by
  intro he
  subst he
  simp [isBlank] at h

end SocketServer

open SocketServer RoomService Fixtures in
/-- C2: the spec requires a get-room-members request from a non-member to be
rejected (ack success false, no member list). The handler computes
`const isMember = roomService.isRoomMember(roomId, userId)` without `await`,
so the guard `if (!isMember)` tests a Promise object, which is always
truthy: at the concrete store where user 2 is not a member of room 1 the ack
still reports success and hands the member list out; the awaited variant of
the same check rejects, as the spec and the in-code thrown error intend. -/
theorem C2_get_room_members_not_rejected :
    isRoomMember storeA 1 2 = false ∧
    (getRoomMembersHandler storeA 2 1).success = true ∧
    (getRoomMembersHandler storeA 2 1).data = some [⟨1, 1, "owner"⟩] ∧
    (getRoomMembersHandlerAwaited storeA 2 1).success = false ∧
    (getRoomMembersHandlerAwaited storeA 2 1).data = none := by
  decide

open SocketServer RoomService UserTracking Fixtures in
/-- C3 counterexample: user 1 has the two live sessions "a" and "b" and
sends a direct message to the offline user 2 from session "a". The send
succeeds, but the delivery list is only ["a"]: the second session "b" of
the caller receives no `direct-message` event, contradicting the claim that
every one of the caller sessions receives the echo. -/
theorem C3_second_session_gets_no_echo :
    (directMessageHandler regTwoTabs storeA 1 "a" (some 2) "hi").success = true ∧
    "b" ∈ getUserSockets regTwoTabs 1 ∧
    "b" ∉ (directMessageHandler regTwoTabs storeA 1 "a" (some 2) "hi").delivered := by
  decide

open SocketServer RoomService UserTracking in
/-- C3 amended: for every successful direct message the sockets that receive
the `direct-message` event are the live sockets of the recipient plus the
one initiating socket of the caller (not all caller sessions); when the
recipient is offline the message is still persisted and only the initiating
socket receives the echo. -/
theorem C3_direct_message_delivery (reg : Registry) (st : Store)
    (userId : Nat) (socketId : String) (rid : Nat) (text : String)
    (h1 : isBlank text = false) (h2 : text.length ≤ 5000) :
    (directMessageHandler reg st userId socketId (some rid) text).success = true ∧
    (directMessageHandler reg st userId socketId (some rid) text).delivered =
      getUserSockets reg rid ++ [socketId] ∧
    (directMessageHandler reg st userId socketId (some rid) text).store.messages =
      st.messages ++
        [⟨st.nextMessageId, none, userId, some rid, text, "text", st.now, none⟩] ∧
    (getUserSockets reg rid = [] →
      (directMessageHandler reg st userId socketId (some rid) text).delivered =
        [socketId]) := by
  have hlen : ¬ (5000 < text.length) := Nat.not_lt.mpr h2
  have hne := text_ne_empty_of_not_blank h1
  simp only [directMessageHandler, h1, Bool.false_eq_true, if_false, hlen,
    if_false, saveMessage, if_neg hne]
  simp only [reduceCtorEq, false_and, if_false]
  refine ⟨rfl, rfl, rfl, ?_⟩
  intro hoff
  rw [hoff]
  rfl

open SocketServer RoomService UserTracking Fixtures in
/-- Witness for C3 amended at reg = (user 1 with sessions "a","b"),
recipient 2 offline, text "hi". -/
theorem C3_direct_message_delivery_witness :
    (directMessageHandler regTwoTabs storeA 1 "a" (some 2) "hi").success = true ∧
    (directMessageHandler regTwoTabs storeA 1 "a" (some 2) "hi").delivered =
      getUserSockets regTwoTabs 2 ++ ["a"] ∧
    (directMessageHandler regTwoTabs storeA 1 "a" (some 2) "hi").store.messages =
      storeA.messages ++
        [⟨storeA.nextMessageId, none, 1, some 2, "hi", "text", storeA.now, none⟩] ∧
    (getUserSockets regTwoTabs 2 = [] →
      (directMessageHandler regTwoTabs storeA 1 "a" (some 2) "hi").delivered =
        ["a"]) :=
  C3_direct_message_delivery regTwoTabs storeA 1 "a" 2 "hi" (by decide) (by decide)

open SocketServer RoomService in
/-- C4: a second join-room by a user who is already a member of an existing
public room succeeds idempotently: the ack reports success, the store keeps
exactly one membership row for the pair, and the call emits exactly one
`user-joined-room` broadcast. -/
theorem C4_join_room_idempotent (st : Store) (subs : Subs) (userId : Nat)
    (socketId : String) (roomId : Nat) (room : Room)
    (hroom : getRoomById st roomId = some room)
    (hpub : room.is_public = true)
    (hmem : memberRowCount st roomId userId = 1) :
    (joinRoomHandler st subs userId socketId roomId).success = true ∧
    memberRowCount (joinRoomHandler st subs userId socketId roomId).store
      roomId userId = 1 ∧
    (joinRoomHandler st subs userId socketId roomId).userJoinedRoomBroadcasts
      = 1 := by
  have hsome : (findMember st roomId userId).isSome :=
    findMember_isSome_of_count_pos (by rw [hmem]; exact Nat.one_pos)
  rcases Option.isSome_iff_exists.mp hsome with ⟨row, hrow⟩
  have hpub2 : ¬ (room.is_public = false) := by rw [hpub]; simp
  simp only [joinRoomHandler, joinRoom, hroom, if_neg hpub2, hrow, hmem]
  exact ⟨trivial, trivial, trivial⟩

open SocketServer RoomService Fixtures in
/-- Witness for C4: user 2 is already the sole member row (1,2) of the
public room 1 in `storeB`; the repeated join succeeds with one broadcast. -/
theorem C4_join_room_idempotent_witness :
    (joinRoomHandler storeB [] 2 "b" 1).success = true ∧
    memberRowCount (joinRoomHandler storeB [] 2 "b" 1).store 1 2 = 1 ∧
    (joinRoomHandler storeB [] 2 "b" 1).userJoinedRoomBroadcasts = 1 :=
  C4_join_room_idempotent storeB [] 2 "b" 1 room1 (by decide) (by decide)
    (by decide)

open SocketServer RoomService Fixtures in
/-- C5 counterexample: the text " " has length 1 (inside the claimed 1..5000
window) and the sender (user 1) is a member of room 1, yet the handler
rejects the message via the `!text.trim()` guard and persists nothing. -/
theorem C5_whitespace_in_range_rejected :
    (" ").length = 1 ∧
    isRoomMember storeA 1 1 = true ∧
    (roomMessageHandler storeA [] 1 1 " ").success = false ∧
    (roomMessageHandler storeA [] 1 1 " ").error = some "Message cannot be empty" ∧
    (roomMessageHandler storeA [] 1 1 " ").store = storeA := by
  decide

open SocketServer RoomService in
/-- C5 amended: a room-message from a member is persisted with ack success
when the text is neither empty nor whitespace-only and has length at most
5000; an empty or whitespace-only or over-long text is rejected to the
caller with nothing persisted; a non-member message is rejected with
nothing persisted. -/
theorem C5_room_message_validation (st : Store) (subs : Subs)
    (userId roomId : Nat) (text : String) :
    (isBlank text = false → text.length ≤ 5000 →
      isRoomMember st roomId userId = true →
      (roomMessageHandler st subs userId roomId text).success = true ∧
      (roomMessageHandler st subs userId roomId text).store.messages =
        st.messages ++
          [⟨st.nextMessageId, some roomId, userId, none, text, "text",
            st.now, none⟩]) ∧
    (isBlank text = true ∨ 5000 < text.length →
      (roomMessageHandler st subs userId roomId text).success = false ∧
      (roomMessageHandler st subs userId roomId text).store = st) ∧
    (isRoomMember st roomId userId = false →
      (roomMessageHandler st subs userId roomId text).success = false ∧
      (roomMessageHandler st subs userId roomId text).store = st) := by
  refine ⟨?_, ?_, ?_⟩
  · intro h1 h2 h3
    have hlen : ¬ (5000 < text.length) := Nat.not_lt.mpr h2
    have hne := text_ne_empty_of_not_blank h1
    simp only [roomMessageHandler, h1, Bool.false_eq_true, if_false, hlen,
      if_false, saveMessage, if_neg hne, h3, if_true]
    simp only [reduceCtorEq, and_false, if_false]
    exact ⟨rfl, rfl⟩
  · intro h
    by_cases hb : isBlank text = true
    · simp [roomMessageHandler, hb]
    · rcases h with h | h
      · exact absurd h hb
      · simp [roomMessageHandler, hb, h]
  · intro h3
    by_cases hb : isBlank text = true
    · simp [roomMessageHandler, hb]
    · by_cases hl : 5000 < text.length
      · simp [roomMessageHandler, hb, hl]
      · by_cases hc : text = ""
        · subst hc
          simp [isBlank] at hb
        · simp [roomMessageHandler, hb, hl, saveMessage, hc, h3]

open SocketServer RoomService Fixtures in
/-- Witness for C5 amended: at `storeA` (room 1 owned by user 1) the three
branches fire on the inputs "hi" (member, valid), " " (whitespace-only),
and "hi" into room 2 (not a member of any row of room 2). -/
theorem C5_room_message_validation_witness :
    ((roomMessageHandler storeA [] 1 1 "hi").success = true ∧
      (roomMessageHandler storeA [] 1 1 "hi").store.messages =
        storeA.messages ++
          [⟨storeA.nextMessageId, some 1, 1, none, "hi", "text",
            storeA.now, none⟩]) ∧
    ((roomMessageHandler storeA [] 1 1 " ").success = false ∧
      (roomMessageHandler storeA [] 1 1 " ").store = storeA) ∧
    ((roomMessageHandler storeA [] 1 2 "hi").success = false ∧
      (roomMessageHandler storeA [] 1 2 "hi").store = storeA) :=
  ⟨(C5_room_message_validation storeA [] 1 1 "hi").1 (by decide) (by decide)
      (by decide),
    (C5_room_message_validation storeA [] 1 1 " ").2.1 (Or.inl (by decide)),
    (C5_room_message_validation storeA [] 1 2 "hi").2.2 (by decide)⟩

open SocketServer RoomService in
/-- C6: a leave-room by the room owner fails with the authorization error
"Room owner cannot leave. Delete the room instead" and leaves the persisted
store (hence the membership table) unchanged; a leave-room by a non-member
fails with "Not a member of this room", store likewise unchanged. -/
theorem C6_owner_and_nonmember_cannot_leave (st : Store)
    (userId roomId : Nat) :
    (∀ row : MemberRow, findMember st roomId userId = some row →
      row.role = "owner" →
      (leaveRoomHandler st userId roomId).success = false ∧
      (leaveRoomHandler st userId roomId).error =
        some "Room owner cannot leave. Delete the room instead" ∧
      (leaveRoomHandler st userId roomId).store = st) ∧
    (findMember st roomId userId = none →
      (leaveRoomHandler st userId roomId).success = false ∧
      (leaveRoomHandler st userId roomId).error =
        some "Not a member of this room" ∧
      (leaveRoomHandler st userId roomId).store = st) := by
  constructor
  · intro row hfind hrole
    simp [leaveRoomHandler, leaveRoom, hfind, hrole]
  · intro hfind
    simp [leaveRoomHandler, leaveRoom, hfind]

open SocketServer RoomService Fixtures in
/-- Witness for C6: in `storeA`, user 1 owns room 1 (owner branch) and user
2 has no membership row (non-member branch). -/
theorem C6_owner_and_nonmember_cannot_leave_witness :
    ((leaveRoomHandler storeA 1 1).success = false ∧
      (leaveRoomHandler storeA 1 1).error =
        some "Room owner cannot leave. Delete the room instead" ∧
      (leaveRoomHandler storeA 1 1).store = storeA) ∧
    ((leaveRoomHandler storeA 2 1).success = false ∧
      (leaveRoomHandler storeA 2 1).error =
        some "Not a member of this room" ∧
      (leaveRoomHandler storeA 2 1).store = storeA) :=
  ⟨(C6_owner_and_nonmember_cannot_leave storeA 1 1).1 ⟨1, 1, "owner"⟩
      (by decide) (by decide),
    (C6_owner_and_nonmember_cannot_leave storeA 2 1).2 (by decide)⟩

open SocketServer RoomService in
/-- C8: on every successful room-message the sockets receiving the
`room-message` event are exactly `subscribersOf(roomId)` at call time (the
fan-out goes through `io.to`, which does not exclude the sender): whenever
the sender socket is subscribed to the room channel it is among the
receivers. -/
theorem C8_room_message_fanout (st : Store) (subs : Subs)
    (userId roomId : Nat) (text : String) (socketId : String)
    (h1 : isBlank text = false) (h2 : text.length ≤ 5000)
    (h3 : isRoomMember st roomId userId = true) :
    (roomMessageHandler st subs userId roomId text).delivered =
      subscribersOf subs roomId ∧
    ((socketId, roomId) ∈ subs →
      socketId ∈ (roomMessageHandler st subs userId roomId text).delivered) := by
  have hlen : ¬ (5000 < text.length) := Nat.not_lt.mpr h2
  have hne := text_ne_empty_of_not_blank h1
  have hdeliv : (roomMessageHandler st subs userId roomId text).delivered =
      subscribersOf subs roomId := by
    simp only [roomMessageHandler, h1, Bool.false_eq_true, if_false, hlen,
      if_false, saveMessage, if_neg hne, h3, if_true]
    simp only [reduceCtorEq, false_and, and_false, if_false]
  refine ⟨hdeliv, ?_⟩
  intro hmem
  rw [hdeliv, subscribersOf]
  exact List.mem_map.mpr ⟨(socketId, roomId),
    List.mem_filter.mpr ⟨hmem, by simp⟩, rfl⟩

open SocketServer RoomService Fixtures in
/-- Witness for C8: with sockets "a","b" subscribed to room 1 and "c" to
room 2, the fan-out of a message from "a" into room 1 is ["a","b"], and the
sender socket "a" is among the receivers. -/
theorem C8_room_message_fanout_witness :
    (roomMessageHandler storeA [("a", 1), ("b", 1), ("c", 2)] 1 1 "hi").delivered =
      subscribersOf [("a", 1), ("b", 1), ("c", 2)] 1 ∧
    (("a", 1) ∈ ([("a", 1), ("b", 1), ("c", 2)] : Subs) →
      "a" ∈ (roomMessageHandler storeA [("a", 1), ("b", 1), ("c", 2)] 1 1
        "hi").delivered) :=
  ⟨(C8_room_message_fanout storeA [("a", 1), ("b", 1), ("c", 2)] 1 1 "hi" "a"
      (by decide) (by decide) (by decide)).1,
    (C8_room_message_fanout storeA [("a", 1), ("b", 1), ("c", 2)] 1 1 "hi" "a"
      (by decide) (by decide) (by decide)).2⟩

namespace UserTracking

open KV

theorem addUser_sockets_self (st : Registry) (u : Nat) (s : String) :
    getUserSockets (addUser st u s) u =
      if s ∈ getUserSockets st u then getUserSockets st u
      else getUserSockets st u ++ [s] := by
  rw [getUserSockets, addUser]
  simp only []
  rw [lookup_setKey_self]
  rfl

theorem addUser_sockets_ne (st : Registry) {u u' : Nat} (s : String)
    (h : u' ≠ u) : getUserSockets (addUser st u s) u' = getUserSockets st u' := by
  rw [getUserSockets, addUser]
  simp only []
  rw [lookup_setKey_ne _ _ _ _ h]
  rfl

theorem addUser_rev_self (st : Registry) (u : Nat) (s : String) :
    getUserBySocket (addUser st u s) s = some u := by
  rw [getUserBySocket, addUser]
  exact lookup_setKey_self _ _ _

theorem addUser_rev_ne (st : Registry) (u : Nat) {s s' : String}
    (h : s' ≠ s) : getUserBySocket (addUser st u s) s' = getUserBySocket st s' := by
  rw [getUserBySocket, addUser]
  exact lookup_setKey_ne _ _ _ _ h

theorem mem_addUser_sockets_self (st : Registry) (u : Nat) (s : String) :
    s ∈ getUserSockets (addUser st u s) u := by
  rw [addUser_sockets_self]
  by_cases hmem : s ∈ getUserSockets st u
  · rw [if_pos hmem]; exact hmem
  · rw [if_neg hmem]; simp

theorem consistent_empty : Consistent emptyRegistry := by
  intro s u
  constructor
  · intro h; cases h
  · intro h; cases h

theorem consistent_addUser {st : Registry} (hc : Consistent st) {u : Nat}
    {s : String}
    (hpre : getUserBySocket st s = none ∨ getUserBySocket st s = some u) :
    Consistent (addUser st u s) := by
  intro s' u'
  by_cases hss : s' = s
  · subst hss
    have hrev : lookup (addUser st u s').socketUsers s' = some u :=
      addUser_rev_self st u s'
    rw [hrev]
    by_cases huu : u' = u
    · subst huu
      simp only [Option.some.injEq]
      constructor
      · intro _; exact mem_addUser_sockets_self st u' s'
      · intro _; trivial
    · constructor
      · intro hequ
        exact absurd (Option.some.inj hequ) (fun hh => huu hh.symm)
      · intro hmem
        rw [addUser_sockets_ne st s' huu] at hmem
        have := (hc s' u').mpr hmem
        rcases hpre with hp | hp
        · rw [getUserBySocket] at hp; rw [hp] at this; cases this
        · rw [getUserBySocket] at hp
          rw [hp] at this
          exact absurd (Option.some.inj this).symm huu
  · have hrev : lookup (addUser st u s).socketUsers s' =
        lookup st.socketUsers s' := addUser_rev_ne st u hss
    rw [hrev]
    by_cases huu : u' = u
    · subst huu
      rw [show getUserSockets (addUser st u' s) u' =
          (if s ∈ getUserSockets st u' then getUserSockets st u'
            else getUserSockets st u' ++ [s]) from addUser_sockets_self st u' s]
      by_cases hmem : s ∈ getUserSockets st u'
      · rw [if_pos hmem]; exact hc s' u'
      · rw [if_neg hmem, List.mem_append, List.mem_singleton]
        constructor
        · intro hl; exact Or.inl ((hc s' u').mp hl)
        · intro hr
          rcases hr with hr | hr
          · exact (hc s' u').mpr hr
          · exact absurd hr hss
    · rw [addUser_sockets_ne st s huu]
      exact hc s' u'

theorem removeUser_not_found {st : Registry} {s : String}
    (h : lookup st.socketUsers s = none) : removeUser st s = (st, none) := by
  simp [removeUser, h]

theorem removeUser_found {st : Registry} {s : String} {u : Nat}
    {set0 : List String} (hrev : lookup st.socketUsers s = some u)
    (hfwd : lookup st.userSockets u = some set0) :
    removeUser st s =
      ({ userSockets :=
          if set0.filter (fun x => decide (x ≠ s)) = [] then
            deleteKey st.userSockets u
          else setKey st.userSockets u (set0.filter (fun x => decide (x ≠ s)))
         socketUsers := deleteKey st.socketUsers s }, some u) := by
  simp [removeUser, hrev, hfwd]

theorem sockets_mem_exists {st : Registry} {u : Nat} {s : String}
    (h : s ∈ getUserSockets st u) :
    ∃ set0, lookup st.userSockets u = some set0 ∧ s ∈ set0 := by
  rw [getUserSockets] at h
  cases hl : lookup st.userSockets u with
  | none => rw [hl] at h; cases h
  | some l => rw [hl] at h; exact ⟨l, rfl, h⟩

theorem consistent_removeUser {st : Registry} (hwf : WFReg st)
    (hc : Consistent st) (s : String) :
    Consistent ((removeUser st s).1) := by
  cases hrev : lookup st.socketUsers s with
  | none =>
    rw [removeUser_not_found hrev]
    exact hc
  | some u =>
    have hs0 : s ∈ getUserSockets st u := (hc s u).mp hrev
    rcases sockets_mem_exists hs0 with ⟨set0, hfwd, hmem0⟩
    rw [removeUser_found hrev hfwd]
    intro s' u'
    simp only []
    by_cases hss : s' = s
    · subst hss
      have hnone : lookup (deleteKey st.socketUsers s') s' = none :=
        lookup_deleteKey_self s' hwf.revKeys
      rw [getUserSockets]
      simp only [hnone]
      constructor
      · intro h; cases h
      · intro h
        exfalso
        by_cases huu : u' = u
        · subst huu
          by_cases hF : set0.filter (fun x => decide (x ≠ s')) = []
          · rw [if_pos hF, lookup_deleteKey_self u' hwf.fwdKeys] at h
            simp at h
          · rw [if_neg hF, lookup_setKey_self] at h
            simp only [Option.getD_some] at h
            rcases List.mem_filter.mp h with ⟨_, hdec⟩
            exact (decide_eq_true_eq.mp hdec) rfl
        · have hsame : lookup
              (if set0.filter (fun x => decide (x ≠ s')) = [] then
                deleteKey st.userSockets u
              else setKey st.userSockets u
                (set0.filter (fun x => decide (x ≠ s')))) u' =
              lookup st.userSockets u' := by
            by_cases hF : set0.filter (fun x => decide (x ≠ s')) = []
            · rw [if_pos hF]; exact lookup_deleteKey_ne _ _ _ huu
            · rw [if_neg hF]; exact lookup_setKey_ne _ _ _ _ huu
          rw [hsame] at h
          have : lookup st.socketUsers s' = some u' :=
            (hc s' u').mpr (by rw [getUserSockets]; exact h)
          rw [hrev] at this
          exact huu (Option.some.inj this).symm
    · have hkeep : lookup (deleteKey st.socketUsers s) s' =
          lookup st.socketUsers s' := lookup_deleteKey_ne _ _ _ hss
      rw [getUserSockets]
      simp only [hkeep]
      by_cases huu : u' = u
      · subst huu
        by_cases hF : set0.filter (fun x => decide (x ≠ s)) = []
        · rw [if_pos hF, lookup_deleteKey_self u' hwf.fwdKeys]
          simp only [Option.getD_none, List.not_mem_nil, iff_false]
          intro hsome
          have hmem' : s' ∈ getUserSockets st u' := (hc s' u').mp hsome
          rw [getUserSockets, hfwd] at hmem'
          simp only [Option.getD_some] at hmem'
          have hall := List.filter_eq_nil_iff.mp hF
          have := hall s' hmem'
          rw [decide_eq_true_eq] at this
          exact this (fun hh => hss hh)
        · rw [if_neg hF, lookup_setKey_self]
          simp only [Option.getD_some]
          rw [List.mem_filter, decide_eq_true_eq]
          constructor
          · intro hsome
            have hmem' : s' ∈ getUserSockets st u' := (hc s' u').mp hsome
            rw [getUserSockets, hfwd] at hmem'
            simp only [Option.getD_some] at hmem'
            exact ⟨hmem', hss⟩
          · intro hand
            exact (hc s' u').mpr
              (by rw [getUserSockets, hfwd]; exact hand.1)
      · have hsame : lookup
            (if set0.filter (fun x => decide (x ≠ s)) = [] then
              deleteKey st.userSockets u
            else setKey st.userSockets u
              (set0.filter (fun x => decide (x ≠ s)))) u' =
            lookup st.userSockets u' := by
          by_cases hF : set0.filter (fun x => decide (x ≠ s)) = []
          · rw [if_pos hF]; exact lookup_deleteKey_ne _ _ _ huu
          · rw [if_neg hF]; exact lookup_setKey_ne _ _ _ _ huu
        rw [hsame]
        exact hc s' u'

theorem wf_consistent_runFrom {st : Registry} {ops : List RegistryOp}
    (hwf : WFReg st) (hc : Consistent st) (hv : ValidFrom st ops) :
    WFReg (runFrom st ops) ∧ Consistent (runFrom st ops) := by
  induction hv with
  | nil => exact ⟨hwf, hc⟩
  | add hpre _tail ih =>
    exact ih (wf_addUser hwf _ _) (consistent_addUser hc hpre)
  | remove _tail ih =>
    exact ih (wf_removeUser hwf _) (consistent_removeUser hwf hc _)

theorem wf_consistent_runOps {ops : List RegistryOp}
    (hv : ValidFrom emptyRegistry ops) :
    WFReg (runOps ops) ∧ Consistent (runOps ops) :=
  wf_consistent_runFrom wf_empty consistent_empty hv

end UserTracking

namespace UserTracking

theorem nodup_eq_singleton {α : Type} {l : List α} {s : α} (hnd : l.Nodup)
    (hmem : s ∈ l) (hall : ∀ x ∈ l, x = s) : l = [s] := by
  cases l with
  | nil => cases hmem
  | cons a t =>
    have ha : a = s := hall a (List.mem_cons_self a t)
    subst ha
    cases t with
    | nil => rfl
    | cons b t2 =>
      have hb : b = a := hall b (by simp)
      subst hb
      simp at hnd

end UserTracking

open UserTracking in
/-- C10: along every trace of `addUser`/`removeUser` calls from the empty
registry in which a socket registered to one user is never re-added under a
different user, the forward and reverse maps agree: `getUserBySocket s`
returns `u` exactly when `s` is in `getUserSockets u`, and returns null
exactly for the sockets (removed or never added) that sit in no Set at
all. -/
theorem C10_bidirectional_map_consistency (ops : List RegistryOp)
    (hv : ValidFrom emptyRegistry ops) (s : String) (u : Nat) :
    (getUserBySocket (runOps ops) s = some u ↔
      s ∈ getUserSockets (runOps ops) u) ∧
    (getUserBySocket (runOps ops) s = none ↔
      ∀ v : Nat, s ∉ getUserSockets (runOps ops) v) := by
  have hc := (wf_consistent_runOps hv).2
  refine ⟨hc s u, ?_, ?_⟩
  · intro hnone v hvmem
    have h2 : getUserBySocket (runOps ops) s = some v := (hc s v).mpr hvmem
    rw [hnone] at h2
    cases h2
  · intro hall
    cases hbs : getUserBySocket (runOps ops) s with
    | none => rfl
    | some v => exact absurd ((hc s v).mp hbs) (hall v)

open UserTracking in
/-- Witness for C10 at the trace [add 1 "a", add 1 "b", remove "a"]: socket
"b" maps to user 1 and lies in the Set of user 1, while the removed socket
"a" lies in no Set. -/
theorem C10_bidirectional_map_consistency_witness :
    ("b" ∈ getUserSockets
      (runOps [RegistryOp.add 1 "a", RegistryOp.add 1 "b",
        RegistryOp.remove "a"]) 1) ∧
    (∀ v : Nat, "a" ∉ getUserSockets
      (runOps [RegistryOp.add 1 "a", RegistryOp.add 1 "b",
        RegistryOp.remove "a"]) v) := by
  have hv : ValidFrom emptyRegistry
      [RegistryOp.add 1 "a", RegistryOp.add 1 "b", RegistryOp.remove "a"] :=
    ValidFrom.add (Or.inl rfl)
      (ValidFrom.add (Or.inl rfl) (ValidFrom.remove ValidFrom.nil))
  exact ⟨(C10_bidirectional_map_consistency _ hv "b" 1).1.mp rfl,
    (C10_bidirectional_map_consistency _ hv "a" 1).2.mp rfl⟩

open UserTracking SocketServer KV in
/-- C7: on every disconnect along a valid trace, when the disconnecting
socket is the last live session of its user the handler emits exactly one
`user-left` broadcast and one refreshed `online-users` snapshot, and when
the user keeps at least one other live session it emits neither. -/
theorem C7_disconnect_broadcasts (ops : List RegistryOp)
    (hv : ValidFrom emptyRegistry ops) (s : String) (u : Nat)
    (howner : getUserBySocket (runOps ops) s = some u) :
    (disconnectHandler (runOps ops) s).userLeftBroadcasts =
      (if getUserSockets (runOps ops) u = [s] then 1 else 0) ∧
    (disconnectHandler (runOps ops) s).onlineUsersBroadcasts =
      (if getUserSockets (runOps ops) u = [s] then 1 else 0) := by
  obtain ⟨hwf, hc⟩ := wf_consistent_runOps hv
  rw [getUserBySocket] at howner
  have hs0 : s ∈ getUserSockets (runOps ops) u := (hc s u).mp howner
  rcases sockets_mem_exists hs0 with ⟨set0, hfwd, hmem0⟩
  have hnd : set0.Nodup := (hwf.vals (u, set0) (lookup_mem hfwd)).2
  have hsockets : getUserSockets (runOps ops) u = set0 := by
    rw [getUserSockets, hfwd]
    rfl
  have hrem := removeUser_found howner hfwd
  by_cases hF : set0.filter (fun x => decide (x ≠ s)) = []
  · have hallS : ∀ x ∈ set0, x = s := by
      intro x hx
      have hnx := List.filter_eq_nil_iff.mp hF x hx
      rw [decide_eq_true_eq] at hnx
      exact not_not.mp hnx
    have hsingle : set0 = [s] := nodup_eq_singleton hnd hmem0 hallS
    have hoffline : isUserOnline (removeUser (runOps ops) s).1 u = false := by
      rw [hrem]
      simp only [if_pos hF]
      rw [isUserOnline, lookup_deleteKey_self u hwf.fwdKeys]
    rw [hrem] at hoffline
    simp only [disconnectHandler, hrem, hoffline, Bool.false_eq_true,
      if_false]
    rw [hsockets, hsingle, if_pos rfl]
    exact ⟨rfl, rfl⟩
  · have honline : isUserOnline (removeUser (runOps ops) s).1 u = true := by
      rw [hrem]
      simp only [if_neg hF]
      rw [isUserOnline, lookup_setKey_self]
      rw [decide_eq_true_eq]
      exact List.length_pos.mpr hF
    rw [hrem] at honline
    simp only [disconnectHandler, hrem, honline, if_true]
    have hne : getUserSockets (runOps ops) u ≠ [s] := by
      rw [hsockets]
      intro heq
      apply hF
      rw [heq]
      simp
    rw [if_neg hne]
    exact ⟨rfl, rfl⟩

open UserTracking SocketServer in
/-- Witness for C7: disconnecting "b", the only session of user 2, emits
the broadcast pair once; disconnecting "a" while user 1 still has session
"b" emits none. -/
theorem C7_disconnect_broadcasts_witness :
    (disconnectHandler
      (runOps [RegistryOp.add 1 "a", RegistryOp.add 2 "b"]) "b").userLeftBroadcasts
      = 1 ∧
    (disconnectHandler
      (runOps [RegistryOp.add 1 "a", RegistryOp.add 1 "b"]) "a").userLeftBroadcasts
      = 0 := by
  have hv1 : ValidFrom emptyRegistry
      [RegistryOp.add 1 "a", RegistryOp.add 2 "b"] :=
    ValidFrom.add (Or.inl rfl) (ValidFrom.add (Or.inl rfl) ValidFrom.nil)
  have hv2 : ValidFrom emptyRegistry
      [RegistryOp.add 1 "a", RegistryOp.add 1 "b"] :=
    ValidFrom.add (Or.inl rfl) (ValidFrom.add (Or.inl rfl) ValidFrom.nil)
  constructor
  · have h := (C7_disconnect_broadcasts _ hv1 "b" 2 rfl).1
    rw [h]
    decide
  · have h := (C7_disconnect_broadcasts _ hv2 "a" 1 rfl).1
    rw [h]
    decide

namespace RoomService

theorem head?_of_sorted_max {l : List MessageRow} {r : MessageRow}
    (hsort : l.Sorted createdDesc) (hmem : r ∈ l)
    (hmax : ∀ x ∈ l, x = r ∨ x.created_at < r.created_at) :
    l.head? = some r := by
  cases l with
  | nil => cases hmem
  | cons a t =>
    rcases hmax a (List.mem_cons_self a t) with ha | ha
    · rw [ha]; rfl
    · exfalso
      rcases List.mem_cons.mp hmem with h | h
      · rw [h] at ha
        exact Nat.lt_irrefl _ ha
      · have hle : createdDesc a r := (List.sorted_cons.mp hsort).1 r h
        rw [createdDesc] at hle
        exact Nat.lt_irrefl _ (Nat.lt_of_le_of_lt hle ha)

theorem head?_take_of_pos {α : Type} {l : List α} {n : Nat} (h : 1 ≤ n) :
    (l.take n).head? = l.head? := by
  cases l with
  | nil => simp
  | cons a t =>
    cases n with
    | zero => exact absurd h (by simp)
    | succ k => simp [List.take]

end RoomService

namespace SocketServer

open RoomService

theorem roomMessageHandler_store_eq {st : Store} {subs : Subs}
    {userId roomId : Nat} {text : String}
    (h1 : isBlank text = false) (h2 : text.length ≤ 5000)
    (h3 : isRoomMember st roomId userId = true) :
    (roomMessageHandler st subs userId roomId text).store =
      { st with
          messages := st.messages ++
            [⟨st.nextMessageId, some roomId, userId, none, text, "text",
              st.now, none⟩]
          nextMessageId := st.nextMessageId + 1
          now := st.now + 1 } := by
  have hlen : ¬ (5000 < text.length) := Nat.not_lt.mpr h2
  have hne := text_ne_empty_of_not_blank h1
  simp only [roomMessageHandler, h1, Bool.false_eq_true, if_false, hlen,
    if_false, saveMessage, if_neg hne, h3, if_true]
  simp only [reduceCtorEq, false_and, and_false, if_false]

theorem roomMessageHandler_success_eq {st : Store} {subs : Subs}
    {userId roomId : Nat} {text : String}
    (h1 : isBlank text = false) (h2 : text.length ≤ 5000)
    (h3 : isRoomMember st roomId userId = true) :
    (roomMessageHandler st subs userId roomId text).success = true := by
  have hlen : ¬ (5000 < text.length) := Nat.not_lt.mpr h2
  have hne := text_ne_empty_of_not_blank h1
  simp only [roomMessageHandler, h1, Bool.false_eq_true, if_false, hlen,
    if_false, saveMessage, if_neg hne, h3, if_true]
  simp only [reduceCtorEq, false_and, and_false, if_false]

end SocketServer

open SocketServer RoomService in
/-- C9: a message successfully sent by a member via room-message appears in
the history returned by `getRoomMessages` (as its newest entry) with the
same sender id and the same content as sent, and the whole returned history
is in chronological order (`created_at` ascending, oldest first) even
though the underlying query orders newest-first; the hypothesis on `now`
states that the stored rows predate the current clock tick, which holds of
every store the service builds. -/
theorem C9_room_message_roundtrip (st : Store) (subs : Subs)
    (userId roomId : Nat) (text : String) (limit : Nat)
    (h1 : isBlank text = false) (h2 : text.length ≤ 5000)
    (h3 : isRoomMember st roomId userId = true)
    (hfresh : ∀ m ∈ st.messages, m.created_at < st.now)
    (hlim : 1 ≤ limit) :
    (roomMessageHandler st subs userId roomId text).success = true ∧
    (getRoomMessages (roomMessageHandler st subs userId roomId text).store
        roomId limit).getLast? =
      some ⟨st.nextMessageId, some roomId, userId, none, text, "text",
        st.now, none⟩ ∧
    (⟨st.nextMessageId, some roomId, userId, none, text, "text",
        st.now, none⟩ : MessageRow).sender_id = userId ∧
    (⟨st.nextMessageId, some roomId, userId, none, text, "text",
        st.now, none⟩ : MessageRow).content = text ∧
    (getRoomMessages (roomMessageHandler st subs userId roomId text).store
        roomId limit).Pairwise
      (fun a b => a.created_at ≤ b.created_at) := by
  have hstore := @roomMessageHandler_store_eq st subs userId roomId text h1 h2 h3
  have hmsgs : (roomMessageHandler st subs userId roomId text).store.messages =
      st.messages ++
        [⟨st.nextMessageId, some roomId, userId, none, text, "text",
          st.now, none⟩] := by
    rw [hstore]
  refine ⟨@roomMessageHandler_success_eq st subs userId roomId text h1 h2 h3,
    ?_, rfl, rfl, ?_⟩
  all_goals
    rw [getRoomMessages, hmsgs]
  · set row : MessageRow :=
      ⟨st.nextMessageId, some roomId, userId, none, text, "text",
        st.now, none⟩ with hrow
    have hprow : (fun m : MessageRow =>
        decide (m.room_id = some roomId ∧ m.deleted_at = none)) row = true := by
      simp [hrow]
    have hfilter :
        ((st.messages ++ [row]).filter
          (fun m => decide (m.room_id = some roomId ∧ m.deleted_at = none))) =
        (st.messages.filter
          (fun m => decide (m.room_id = some roomId ∧ m.deleted_at = none)))
          ++ [row] := by
      rw [List.filter_append]
      simp [hprow]
    rw [hfilter]
    set fl := (st.messages.filter
      (fun m => decide (m.room_id = some roomId ∧ m.deleted_at = none)))
      ++ [row] with hfl
    have hsorted : (List.insertionSort createdDesc fl).Sorted createdDesc :=
      List.sorted_insertionSort createdDesc fl
    have hmem : row ∈ List.insertionSort createdDesc fl :=
      (List.perm_insertionSort createdDesc fl).mem_iff.mpr
        (by rw [hfl]; exact List.mem_append_right _ (List.mem_singleton.mpr rfl))
    have hmax : ∀ x ∈ List.insertionSort createdDesc fl,
        x = row ∨ x.created_at < row.created_at := by
      intro x hx
      have hxfl : x ∈ fl := (List.perm_insertionSort createdDesc fl).mem_iff.mp hx
      rw [hfl] at hxfl
      rcases List.mem_append.mp hxfl with hxm | hxm
      · right
        have hxmsg : x ∈ st.messages := (List.mem_filter.mp hxm).1
        exact hfresh x hxmsg
      · left
        exact List.mem_singleton.mp hxm
    have hhead : (List.insertionSort createdDesc fl).head? = some row :=
      head?_of_sorted_max hsorted hmem hmax
    rw [List.getLast?_reverse, head?_take_of_pos hlim, hhead]
  · have hsorted : (List.insertionSort createdDesc
        ((st.messages ++
          [(⟨st.nextMessageId, some roomId, userId, none, text, "text",
            st.now, none⟩ : MessageRow)]).filter
          (fun m => decide (m.room_id = some roomId ∧ m.deleted_at = none)))).Sorted
        createdDesc :=
      List.sorted_insertionSort createdDesc _
    have htake := hsorted.sublist (List.take_sublist limit _)
    exact List.pairwise_reverse.mpr htake

open SocketServer RoomService Fixtures in
/-- Witness for C9: user 1 sends "hi" into room 1 of `storeA`; the history
read back with limit 50 ends with that row, which carries sender 1 and
content "hi", and the history is chronologically sorted. -/
theorem C9_room_message_roundtrip_witness :
    (roomMessageHandler storeA [] 1 1 "hi").success = true ∧
    (getRoomMessages (roomMessageHandler storeA [] 1 1 "hi").store
        1 50).getLast? =
      some ⟨storeA.nextMessageId, some 1, 1, none, "hi", "text",
        storeA.now, none⟩ ∧
    (⟨storeA.nextMessageId, some 1, 1, none, "hi", "text",
        storeA.now, none⟩ : MessageRow).sender_id = 1 ∧
    (⟨storeA.nextMessageId, some 1, 1, none, "hi", "text",
        storeA.now, none⟩ : MessageRow).content = "hi" ∧
    (getRoomMessages (roomMessageHandler storeA [] 1 1 "hi").store
        1 50).Pairwise (fun a b => a.created_at ≤ b.created_at) :=
  C9_room_message_roundtrip storeA [] 1 1 "hi" 50 (by decide) (by decide)
    (by decide) (by decide) (by decide)
